import Mathlib

/-!
Verification development for the VIIRS SNPP daily gridding repository.

The two core source files are embedded here over exact arithmetic:

* `viirs_snpp_daily_gridding/process_data/grid.py` (the binning aggregator
  `grid`): Python/numpy floats are modelled as rationals (`ℚ`), the 2D numpy
  arrays of shape `(xdim, ydim)` as total functions `ℤ × ℤ → _` that agree
  with the source arrays on the index range `0 ≤ i < xdim`, `0 ≤ j < ydim`,
  and elementwise numpy operations as pointwise function definitions.  The
  only irrational value the source produces, `np.sqrt(para1)`, is embedded
  through `Real.sqrt`; every branch decision remains exact rational
  arithmetic.  Python `int(...)` truncation and `round(...)` (banker's
  rounding, ties to even) are modelled by `pytrunc` and `pyround`.
  Python runtime failures that the source can actually raise on malformed
  inputs (float division by zero, `np.zeros` with a negative dimension,
  list indexing past the end, with the `and`-short-circuit access order of
  the binning condition) are modelled by the `Except GridError` result of
  `grid`; `binLoop_ok` shows that on contract-respecting (equal-length)
  inputs the loop reduces to the pure fold `binAll`.

* `viirs_snpp_daily_gridding/process_data/combine_db_dt.py`
  (`db_dt_processing`): numpy masked assignments are embedded as pointwise
  conditionals over `ℤ × ℤ → ℚ` grids.
-/

/-- Per-sample record: one index position of the four parallel input
sequences `indata`, `inlat`, `inlon`, `vza` of `grid`. -/
structure Sample where
  data : ℚ
  lat : ℚ
  lon : ℚ
  vza : ℚ
deriving DecidableEq

/-- Bounding box `[minlat, maxlat, minlon, maxlon]`, the `limit` argument of
`grid` (grid.py lines 38-41). -/
structure GridLimit where
  minlat : ℚ
  maxlat : ℚ
  minlon : ℚ
  maxlon : ℚ
deriving DecidableEq

/-- Python `int(q)` for a float `q`: truncation toward zero. -/
def pytrunc (q : ℚ) : ℤ :=
  if 0 ≤ q then ⌊q⌋ else ⌈q⌉

/-- Python `round(q)` for a float `q`: nearest integer, ties to even. -/
def pyround (q : ℚ) : ℤ :=
  if q - ⌊q⌋ < 1 / 2 then ⌊q⌋
  else if 1 / 2 < q - ⌊q⌋ then ⌊q⌋ + 1
  else if Even ⌊q⌋ then ⌊q⌋ else ⌊q⌋ + 1

/-- Number of grid columns, `xdim = round(1 + (maxlon - minlon) / dx)`
(grid.py line 42, with `dx = gsize`). -/
def xdim (L : GridLimit) (g : ℚ) : ℤ :=
  pyround (1 + (L.maxlon - L.minlon) / g)

/-- Number of grid rows, `ydim = round(1 + (maxlat - minlat) / dy)`
(grid.py line 43, with `dy = gsize`). -/
def ydim (L : GridLimit) (g : ℚ) : ℤ :=
  pyround (1 + (L.maxlat - L.minlat) / g)

/-- The accumulator cell state at one index `(i, j)` of the first loop of
`grid`: the arrays `sumtau`, `sum_vza`, `sqrtau`, `count`, `mintau`,
`maxtau` (grid.py lines 44-49). -/
structure Cell where
  sumtau : ℚ
  sum_vza : ℚ
  sqrtau : ℚ
  count : ℤ
  mintau : ℚ
  maxtau : ℚ
deriving DecidableEq

/-- Initial accumulator state of every cell: zeros for the sums and the
count, `10` for `mintau`, `-1` for `maxtau` (grid.py lines 44-49). -/
def initCell : Cell :=
  { sumtau := 0, sum_vza := 0, sqrtau := 0, count := 0, mintau := 10, maxtau := -1 }

/-- Closed bounding-box membership, the condition of grid.py line 57. -/
def inBoxP (L : GridLimit) (s : Sample) : Prop :=
  L.minlat ≤ s.lat ∧ s.lat ≤ L.maxlat ∧ L.minlon ≤ s.lon ∧ s.lon ≤ L.maxlon

instance (L : GridLimit) (s : Sample) : Decidable (inBoxP L s) := by
  unfold inBoxP; infer_instance

/-- Boolean form of the bounding-box test. -/
def inBox (L : GridLimit) (s : Sample) : Bool :=
  decide (inBoxP L s)

/-- Cell index of a sample: `i = int((inlon - minlon) / dx)`,
`j = int((inlat - minlat) / dy)` (grid.py lines 58-59). -/
def sampleCell (L : GridLimit) (g : ℚ) (s : Sample) : ℤ × ℤ :=
  (pytrunc ((s.lon - L.minlon) / g), pytrunc ((s.lat - L.minlat) / g))

/-- Accumulator update for one binned sample (grid.py lines 60-68). -/
def cellUpd (c : Cell) (s : Sample) : Cell :=
  { sumtau := c.sumtau + s.data
    sum_vza := c.sum_vza + s.vza
    sqrtau := c.sqrtau + s.data ^ 2
    count := c.count + 1
    mintau := if s.data < c.mintau then s.data else c.mintau
    maxtau := if s.data > c.maxtau then s.data else c.maxtau }

/-- One iteration of the binning loop (grid.py lines 56-68): if the sample
lies in the closed box, update the accumulator arrays at its cell index. -/
def binStep (L : GridLimit) (g : ℚ) (st : ℤ × ℤ → Cell) (s : Sample) : ℤ × ℤ → Cell :=
  if inBox L s then
    fun p => if p = sampleCell L g s then cellUpd (st (sampleCell L g s)) s else st p
  else st

/-- The whole binning loop over a sample stream, starting from the
all-`initCell` state. -/
def binAll (L : GridLimit) (g : ℚ) (ss : List Sample) : ℤ × ℤ → Cell :=
  ss.foldl (binStep L g) (fun _ => initCell)

/-- The samples of the stream that the loop bins into cell `p`. -/
def cellSamples (L : GridLimit) (g : ℚ) (ss : List Sample) (p : ℤ × ℤ) : List Sample :=
  ss.filter fun s => inBox L s && decide (sampleCell L g s = p)

/-- The data values binned into cell `p`. -/
def cellValues (L : GridLimit) (g : ℚ) (ss : List Sample) (p : ℤ × ℤ) : List ℚ :=
  (cellSamples L g ss p).map Sample.data

/-- Index range of the output arrays: the second loop of `grid` runs over
`0 ≤ i < xdim`, `0 ≤ j < ydim` (grid.py lines 70-71). -/
def inGrid (L : GridLimit) (g : ℚ) (i j : ℤ) : Prop :=
  0 ≤ i ∧ i < xdim L g ∧ 0 ≤ j ∧ j < ydim L g

instance (L : GridLimit) (g : ℚ) (i j : ℤ) : Decidable (inGrid L g i j) := by
  unfold inGrid; infer_instance

/-- Mean output `avgtau[i,j] = sumtau[i,j] / count[i,j]` where `count > 0`,
else the fill initialisation `-999.0` (grid.py lines 50, 74-75). -/
def avgtauOf (st : ℤ × ℤ → Cell) (i j : ℤ) : ℚ :=
  if 0 < (st (i, j)).count then (st (i, j)).sumtau / ((st (i, j)).count : ℚ) else -999

/-- Mean-angle output `avg_vza[i,j] = sum_vza[i,j] / count[i,j]` where
`count > 0`, else `-999.0` (grid.py lines 51, 76). -/
def avg_vzaOf (st : ℤ × ℤ → Cell) (i j : ℤ) : ℚ :=
  if 0 < (st (i, j)).count then (st (i, j)).sum_vza / ((st (i, j)).count : ℚ) else -999

/-- The variance radicand
`para1 = (1/count) * (sqrtau + count*avgtau*avgtau - 2*avgtau*sumtau)`
(grid.py line 77). -/
def para1Of (st : ℤ × ℤ → Cell) (i j : ℤ) : ℚ :=
  (1 / ((st (i, j)).count : ℚ)) *
    ((st (i, j)).sqrtau + ((st (i, j)).count : ℚ) * avgtauOf st i j * avgtauOf st i j
      - 2 * avgtauOf st i j * (st (i, j)).sumtau)

/-- Standard-deviation output: `np.sqrt(para1)` when `count > 0` and
`para1 > 0`, else the fill initialisation `-999.0` (grid.py lines 52, 77-79). -/
noncomputable def stdtauOf (st : ℤ × ℤ → Cell) (i j : ℤ) : ℝ :=
  if 0 < (st (i, j)).count ∧ 0 < para1Of st i j
  then Real.sqrt ((para1Of st i j : ℚ) : ℝ) else -999

/-- Coordinate output `grdlon[i,j] = dx*i + minlon` (grid.py line 72). -/
def grdlonOf (L : GridLimit) (g : ℚ) (i _j : ℤ) : ℚ :=
  g * (i : ℚ) + L.minlon

/-- Coordinate output `grdlat[i,j] = dx*j + minlat` (grid.py line 73). -/
def grdlatOf (L : GridLimit) (g : ℚ) (_i j : ℤ) : ℚ :=
  g * (j : ℚ) + L.minlat

/-- Minimum output after the final remap `mintau[mintau == 10] = -1`
(grid.py line 81). -/
def mintauOf (st : ℤ × ℤ → Cell) (i j : ℤ) : ℚ :=
  if (st (i, j)).mintau = 10 then -1 else (st (i, j)).mintau

/-- Maximum output, taken directly from the accumulator (grid.py line 49,
seeded at `-1`, never remapped). -/
def maxtauOf (st : ℤ × ℤ → Cell) (i j : ℤ) : ℚ :=
  (st (i, j)).maxtau

/-- Count output after the final remap `count[count == 0] = -999`
(grid.py line 82). -/
def countOf (st : ℤ × ℤ → Cell) (i j : ℤ) : ℤ :=
  if (st (i, j)).count = 0 then -999 else (st (i, j)).count

/-- Runtime failures the Python source can raise on malformed inputs:
float division by zero in the dimension computation, `np.zeros` with a
negative dimension, list indexing past the end inside the binning loop. -/
inductive GridError where
  | zeroDivisionError
  | valueError
  | indexError
deriving DecidableEq

/-- The tuple of arrays returned by `grid` (grid.py line 85). -/
structure GridResult where
  avgtau : ℤ → ℤ → ℚ
  stdtau : ℤ → ℤ → ℝ
  grdlat : ℤ → ℤ → ℚ
  grdlon : ℤ → ℤ → ℚ
  mintau : ℤ → ℤ → ℚ
  maxtau : ℤ → ℤ → ℚ
  count : ℤ → ℤ → ℤ
  avg_vza : ℤ → ℤ → ℚ

/-- The binning loop with Python's fallible list indexing made explicit.
The loop runs over `range(len(indata))`; `inlat[ii]` is read first, the
lat tests short-circuit the read of `inlon[ii]`, and `indata[ii]` /
`vza[ii]` are read only for in-box samples (grid.py lines 56-68).  A list
whose current entry is not read this iteration merely advances. -/
def binLoop (L : GridLimit) (g : ℚ) :
    List ℚ → List ℚ → List ℚ → List ℚ → (ℤ × ℤ → Cell) →
    Except GridError (ℤ × ℤ → Cell)
  | [], _, _, _, st => .ok st
  | _ :: _, [], _, _, _ => .error .indexError
  | _ :: ts, la :: lats, [], vzas, st =>
    if la < L.minlat ∨ L.maxlat < la then
      binLoop L g ts lats [] vzas.tail st
    else .error .indexError
  | _ :: ts, la :: lats, lo :: lons, [], st =>
    if la < L.minlat ∨ L.maxlat < la then
      binLoop L g ts lats lons [] st
    else if lo < L.minlon ∨ L.maxlon < lo then
      binLoop L g ts lats lons [] st
    else .error .indexError
  | t :: ts, la :: lats, lo :: lons, v :: vzas, st =>
    if la < L.minlat ∨ L.maxlat < la then
      binLoop L g ts lats lons vzas st
    else if lo < L.minlon ∨ L.maxlon < lo then
      binLoop L g ts lats lons vzas st
    else
      binLoop L g ts lats lons vzas (binStep L g st ⟨t, la, lo, v⟩)

/-- The aggregator `grid(limit, gsize, indata, inlat, inlon, vza)`
(grid.py lines 5-85), with the Python failure modes surfaced as errors. -/
noncomputable def grid (limit : GridLimit) (gsize : ℚ)
    (indata inlat inlon vza : List ℚ) : Except GridError GridResult :=
  if gsize = 0 then .error .zeroDivisionError
  else if xdim limit gsize < 0 ∨ ydim limit gsize < 0 then .error .valueError
  else
    (binLoop limit gsize indata inlat inlon vza (fun _ => initCell)).map fun st =>
      { avgtau := avgtauOf st
        stdtau := stdtauOf st
        grdlat := grdlatOf limit gsize
        grdlon := grdlonOf limit gsize
        mintau := mintauOf st
        maxtau := maxtauOf st
        count := countOf st
        avg_vza := avg_vzaOf st }

/-- Zipper joining the four parallel input sequences into a sample stream. -/
def zip4 : List ℚ → List ℚ → List ℚ → List ℚ → List Sample
  | t :: ts, la :: lats, lo :: lons, v :: vzas =>
    ⟨t, la, lo, v⟩ :: zip4 ts lats lons vzas
  | _, _, _, _ => []

/-- Fill sentinel of the combiner (combine_db_dt.py line 3). -/
def INVALID_VALUE : ℚ := -999

/-- The three outputs of `db_dt_processing` (combine_db_dt.py line 44). -/
structure CombineOut where
  dbdt_tau : ℤ × ℤ → ℚ
  dtdb_tau : ℤ × ℤ → ℚ
  avg_tau : ℤ × ℤ → ℚ

/-- The combiner `db_dt_processing(db_tau, dt_tau)` (combine_db_dt.py
lines 5-44): each numpy copy-then-masked-assignment pair is embedded as a
pointwise conditional. -/
def db_dt_processing (db_tau dt_tau : ℤ × ℤ → ℚ) : CombineOut where
  dbdt_tau := fun p =>
    if db_tau p = INVALID_VALUE ∧ dt_tau p ≠ INVALID_VALUE then dt_tau p else db_tau p
  dtdb_tau := fun p =>
    if dt_tau p = INVALID_VALUE ∧ db_tau p ≠ INVALID_VALUE then db_tau p else dt_tau p
  avg_tau := fun p =>
    let a1 := if dt_tau p ≠ INVALID_VALUE ∧ db_tau p ≠ INVALID_VALUE
      then (dt_tau p + db_tau p) / 2 else db_tau p
    if a1 = INVALID_VALUE ∧ dt_tau p ≠ INVALID_VALUE then dt_tau p else a1

/-- Symbolic numpy dtypes, for recording the precision each array of
`grid` is declared with. -/
inductive NpDType where
  | float32
  | float64
  | int32
  | platformInt
deriving DecidableEq

/-- Dtype of the `sumtau` accumulator (grid.py line 44). -/
def sumtau_dtype : NpDType := .float32

/-- Dtype of the `sum_vza` accumulator (grid.py line 45). -/
def sum_vza_dtype : NpDType := .float32

/-- Dtype of the `sqrtau` accumulator (grid.py line 46). -/
def sqrtau_dtype : NpDType := .float32

/-- Dtype of the `count` accumulator, `dtype=int` (grid.py line 47). -/
def count_init_dtype : NpDType := .platformInt

/-- Dtype of the exposed `count`, `count.astype(np.int32)` (grid.py line 83). -/
def count_out_dtype : NpDType := .int32

/-- Dtype of the exposed `avgtau` (grid.py line 50). -/
def avgtau_dtype : NpDType := .float32

/-- Dtype of the exposed `avg_vza` (grid.py line 51). -/
def avg_vza_dtype : NpDType := .float32

/-- Dtype of the exposed `stdtau` (grid.py line 52). -/
def stdtau_dtype : NpDType := .float32

/-- Dtype of the exposed `mintau` (grid.py line 48). -/
def mintau_dtype : NpDType := .float32

/-- Dtype of the exposed `maxtau` (grid.py line 49). -/
def maxtau_dtype : NpDType := .float32

/-! ## Helper lemmas about the binning loop -/

/-- Evaluating one binning step at an arbitrary cell index. -/
lemma binStep_apply (L : GridLimit) (g : ℚ) (st : ℤ × ℤ → Cell) (s : Sample)
    (p : ℤ × ℤ) :
    binStep L g st s p =
      if inBox L s && decide (sampleCell L g s = p) then cellUpd (st p) s else st p := by
  unfold binStep
  by_cases hb : inBox L s = true
  · rw [if_pos hb]
    by_cases hp : sampleCell L g s = p
    · rw [hp]
      simp [hb]
    · have hp2 : ¬ p = sampleCell L g s := fun h => hp h.symm
      simp [hb, hp, hp2]
  · have hb2 : inBox L s = false := by revert hb; cases inBox L s <;> simp
    simp [hb2]

/-- A sample outside the closed box leaves the whole accumulator state
unchanged. -/
lemma binStep_of_not_inBox (L : GridLimit) (g : ℚ) (st : ℤ × ℤ → Cell) (s : Sample)
    (h : inBox L s = false) : binStep L g st s = st := by
  unfold binStep
  rw [h]
  simp

/-- The fold of binning steps, read at one cell, is the fold of plain cell
updates over exactly the samples binned into that cell. -/
lemma foldl_binStep_apply (L : GridLimit) (g : ℚ) (ss : List Sample) :
    ∀ (st : ℤ × ℤ → Cell) (p : ℤ × ℤ),
      ss.foldl (binStep L g) st p =
        (ss.filter fun s => inBox L s && decide (sampleCell L g s = p)).foldl
          cellUpd (st p) := by
  induction ss with
  | nil => intro st p; rfl
  | cons s ss ih =>
    intro st p
    rw [List.foldl_cons, ih, List.filter_cons]
    by_cases hf : (inBox L s && decide (sampleCell L g s = p)) = true
    · rw [if_pos hf, List.foldl_cons]
      rw [binStep_apply, if_pos hf]
    · rw [if_neg hf, binStep_apply, if_neg hf]

/-- The accumulator state of a cell is the plain fold over its binned
samples, starting from the initial cell. -/
lemma binAll_apply (L : GridLimit) (g : ℚ) (ss : List Sample) (p : ℤ × ℤ) :
    binAll L g ss p = (cellSamples L g ss p).foldl cellUpd initCell := by
  unfold binAll cellSamples
  rw [foldl_binStep_apply]

/-- Count after folding cell updates: one increment per sample. -/
lemma foldl_cellUpd_count (l : List Sample) :
    ∀ c : Cell, (l.foldl cellUpd c).count = c.count + l.length := by
  induction l with
  | nil => intro c; simp
  | cons s l ih =>
    intro c
    rw [List.foldl_cons, ih]
    simp [cellUpd]
    omega

/-- Value sum after folding cell updates. -/
lemma foldl_cellUpd_sumtau (l : List Sample) :
    ∀ c : Cell, (l.foldl cellUpd c).sumtau = c.sumtau + (l.map Sample.data).sum := by
  induction l with
  | nil => intro c; simp
  | cons s l ih =>
    intro c
    rw [List.foldl_cons, ih]
    simp [cellUpd]
    ring

/-- Squared-value sum after folding cell updates. -/
lemma foldl_cellUpd_sqrtau (l : List Sample) :
    ∀ c : Cell, (l.foldl cellUpd c).sqrtau =
      c.sqrtau + (l.map fun s => s.data ^ 2).sum := by
  induction l with
  | nil => intro c; simp
  | cons s l ih =>
    intro c
    rw [List.foldl_cons, ih]
    simp [cellUpd]
    ring

/-- Angle sum after folding cell updates. -/
lemma foldl_cellUpd_sum_vza (l : List Sample) :
    ∀ c : Cell, (l.foldl cellUpd c).sum_vza = c.sum_vza + (l.map Sample.vza).sum := by
  induction l with
  | nil => intro c; simp
  | cons s l ih =>
    intro c
    rw [List.foldl_cons, ih]
    simp [cellUpd]
    ring

/-- The running-minimum update of `cellUpd`, on bare values. -/
def minFn (m v : ℚ) : ℚ := if v < m then v else m

/-- The running-maximum update of `cellUpd`, on bare values. -/
def maxFn (m v : ℚ) : ℚ := if v > m then v else m

/-- Running minimum after folding cell updates. -/
lemma foldl_cellUpd_mintau (l : List Sample) :
    ∀ c : Cell, (l.foldl cellUpd c).mintau = (l.map Sample.data).foldl minFn c.mintau := by
  induction l with
  | nil => intro c; simp
  | cons s l ih =>
    intro c
    rw [List.foldl_cons, ih]
    rfl

/-- Running maximum after folding cell updates. -/
lemma foldl_cellUpd_maxtau (l : List Sample) :
    ∀ c : Cell, (l.foldl cellUpd c).maxtau = (l.map Sample.data).foldl maxFn c.maxtau := by
  induction l with
  | nil => intro c; simp
  | cons s l ih =>
    intro c
    rw [List.foldl_cons, ih]
    rfl

lemma minFn_le_left (m v : ℚ) : minFn m v ≤ m := by
  unfold minFn; split_ifs with h
  · exact le_of_lt h
  · exact le_rfl

lemma minFn_le_right (m v : ℚ) : minFn m v ≤ v := by
  unfold minFn; split_ifs with h
  · exact le_rfl
  · exact not_lt.mp h

lemma le_maxFn_left (m v : ℚ) : m ≤ maxFn m v := by
  unfold maxFn; split_ifs with h
  · exact le_of_lt h
  · exact le_rfl

lemma le_maxFn_right (m v : ℚ) : v ≤ maxFn m v := by
  unfold maxFn; split_ifs with h
  · exact le_rfl
  · exact not_lt.mp h

/-- A fold of running minima never exceeds its seed. -/
lemma foldl_minFn_le_seed (l : List ℚ) : ∀ a : ℚ, l.foldl minFn a ≤ a := by
  induction l with
  | nil => intro a; simp
  | cons v l ih =>
    intro a
    rw [List.foldl_cons]
    exact le_trans (ih (minFn a v)) (minFn_le_left a v)

/-- A fold of running minima is a lower bound of the list. -/
lemma foldl_minFn_le_mem (l : List ℚ) :
    ∀ (a x : ℚ), x ∈ l → l.foldl minFn a ≤ x := by
  induction l with
  | nil => intro a x hx; cases hx
  | cons v l ih =>
    intro a x hx
    rw [List.foldl_cons]
    rcases List.mem_cons.mp hx with h | h
    · subst h
      exact le_trans (foldl_minFn_le_seed l (minFn a x)) (minFn_le_right a x)
    · exact ih (minFn a v) x h

/-- A fold of running minima lands in the list or stays at the seed. -/
lemma foldl_minFn_mem_or (l : List ℚ) :
    ∀ a : ℚ, l.foldl minFn a ∈ l ∨ l.foldl minFn a = a := by
  induction l with
  | nil => intro a; simp
  | cons v l ih =>
    intro a
    rw [List.foldl_cons]
    rcases ih (minFn a v) with h | h
    · exact Or.inl (List.mem_cons_of_mem v h)
    · rw [h]
      unfold minFn
      split_ifs
      · exact Or.inl (List.mem_cons_self _ _)
      · exact Or.inr rfl

/-- A fold of running maxima is at least its seed. -/
lemma seed_le_foldl_maxFn (l : List ℚ) : ∀ a : ℚ, a ≤ l.foldl maxFn a := by
  induction l with
  | nil => intro a; simp
  | cons v l ih =>
    intro a
    rw [List.foldl_cons]
    exact le_trans (le_maxFn_left a v) (ih (maxFn a v))

/-- A fold of running maxima is an upper bound of the list. -/
lemma mem_le_foldl_maxFn (l : List ℚ) :
    ∀ (a x : ℚ), x ∈ l → x ≤ l.foldl maxFn a := by
  induction l with
  | nil => intro a x hx; cases hx
  | cons v l ih =>
    intro a x hx
    rw [List.foldl_cons]
    rcases List.mem_cons.mp hx with h | h
    · subst h
      exact le_trans (le_maxFn_right a x) (seed_le_foldl_maxFn l (maxFn a x))
    · exact ih (maxFn a v) x h

/-- A fold of running maxima lands in the list or stays at the seed. -/
lemma foldl_maxFn_mem_or (l : List ℚ) :
    ∀ a : ℚ, l.foldl maxFn a ∈ l ∨ l.foldl maxFn a = a := by
  induction l with
  | nil => intro a; simp
  | cons v l ih =>
    intro a
    rw [List.foldl_cons]
    rcases ih (maxFn a v) with h | h
    · exact Or.inl (List.mem_cons_of_mem v h)
    · rw [h]
      unfold maxFn
      split_ifs
      · exact Or.inl (List.mem_cons_self _ _)
      · exact Or.inr rfl

/-! ## Arithmetic helper lemmas -/

/-- Python truncation agrees with the floor on nonnegative arguments. -/
lemma pytrunc_of_nonneg {q : ℚ} (h : 0 ≤ q) : pytrunc q = ⌊q⌋ := if_pos h

/-- Banker's rounding never goes below the floor. -/
lemma floor_le_pyround (q : ℚ) : ⌊q⌋ ≤ pyround q := by
  unfold pyround
  split_ifs <;> omega

/-- For a cell with samples, the source's `para1` expression equals the
textbook one-pass radicand over exact arithmetic. -/
lemma para1Of_eq (st : ℤ × ℤ → Cell) (i j : ℤ) (hc : 0 < (st (i, j)).count) :
    para1Of st i j =
      (st (i, j)).sqrtau / ((st (i, j)).count : ℚ) - avgtauOf st i j ^ 2 := by
  have hne : (st (i, j)).count ≠ 0 := by omega
  have hc0 : ((st (i, j)).count : ℚ) ≠ 0 := Int.cast_ne_zero.mpr hne
  unfold para1Of avgtauOf
  rw [if_pos hc]
  field_simp
  ring

/-- When the radicand is not positive, the standard deviation stays at the
fill value. -/
lemma stdtauOf_of_nonpos (st : ℤ × ℤ → Cell) (i j : ℤ)
    (h : para1Of st i j ≤ 0) : stdtauOf st i j = -999 := by
  unfold stdtauOf
  rw [if_neg]
  rintro ⟨-, hp⟩
  exact absurd hp (not_lt.mpr h)

/-- Membership in the box fails whenever one strict-outside condition
holds. -/
lemma inBox_eq_false_of_outside (L : GridLimit) (s : Sample)
    (h : s.lat < L.minlat ∨ L.maxlat < s.lat ∨ s.lon < L.minlon ∨ L.maxlon < s.lon) :
    inBox L s = false := by
  have hn : ¬ inBoxP L s := by
    rintro ⟨h1, h2, h3, h4⟩
    rcases h with h | h | h | h
    · exact absurd h1 (not_le.mpr h)
    · exact absurd h2 (not_le.mpr h)
    · exact absurd h3 (not_le.mpr h)
    · exact absurd h4 (not_le.mpr h)
  simp [inBox, hn]

/-- On equal-length inputs, the fallible binning loop always succeeds and
computes the pure fold over the zipped sample stream. -/
lemma binLoop_ok (L : GridLimit) (g : ℚ) :
    ∀ (d la lo vz : List ℚ) (st : ℤ × ℤ → Cell),
      d.length = la.length → d.length = lo.length → d.length = vz.length →
      binLoop L g d la lo vz st = .ok ((zip4 d la lo vz).foldl (binStep L g) st) := by
  intro d
  induction d with
  | nil =>
    intro la lo vz st h1 h2 h3
    rfl
  | cons t ts ih =>
    intro la lo vz st h1 h2 h3
    match la, lo, vz with
    | [], _, _ => exact absurd h1 (by simp)
    | _ :: _, [], _ => exact absurd h2 (by simp)
    | _ :: _, _ :: _, [] => exact absurd h3 (by simp)
    | a :: las, o :: los, w :: ws =>
      simp only [List.length_cons, Nat.add_right_cancel_iff] at h1 h2 h3
      show binLoop L g (t :: ts) (a :: las) (o :: los) (w :: ws) st = _
      unfold binLoop
      have hz : zip4 (t :: ts) (a :: las) (o :: los) (w :: ws) =
          ⟨t, a, o, w⟩ :: zip4 ts las los ws := rfl
      by_cases hla : a < L.minlat ∨ L.maxlat < a
      · rw [if_pos hla]
        rw [ih las los ws st h1 h2 h3, hz, List.foldl_cons,
          binStep_of_not_inBox L g st ⟨t, a, o, w⟩
            (inBox_eq_false_of_outside L _ (by tauto))]
      · rw [if_neg hla]
        by_cases hlo : o < L.minlon ∨ L.maxlon < o
        · rw [if_pos hlo]
          rw [ih las los ws st h1 h2 h3, hz, List.foldl_cons,
            binStep_of_not_inBox L g st ⟨t, a, o, w⟩
              (inBox_eq_false_of_outside L _ (by tauto))]
        · rw [if_neg hlo]
          rw [ih las los ws _ h1 h2 h3, hz, List.foldl_cons]

/-! ## Claim theorems: Product Combiner -/

/-- C8: for every pair of same-shaped mean grids and every cell, the
preferred-DB output equals DB except where DB is FILL and DT is not (then
it equals DT, and both-FILL stays FILL), and the preferred-DT output is
the exact mirror image. -/
theorem c8_prefer_fallback (db_tau dt_tau : ℤ × ℤ → ℚ) (p : ℤ × ℤ) :
    (db_tau p ≠ INVALID_VALUE →
      (db_dt_processing db_tau dt_tau).dbdt_tau p = db_tau p) ∧
    (db_tau p = INVALID_VALUE → dt_tau p ≠ INVALID_VALUE →
      (db_dt_processing db_tau dt_tau).dbdt_tau p = dt_tau p) ∧
    (db_tau p = INVALID_VALUE → dt_tau p = INVALID_VALUE →
      (db_dt_processing db_tau dt_tau).dbdt_tau p = INVALID_VALUE) ∧
    (dt_tau p ≠ INVALID_VALUE →
      (db_dt_processing db_tau dt_tau).dtdb_tau p = dt_tau p) ∧
    (dt_tau p = INVALID_VALUE → db_tau p ≠ INVALID_VALUE →
      (db_dt_processing db_tau dt_tau).dtdb_tau p = db_tau p) ∧
    (dt_tau p = INVALID_VALUE → db_tau p = INVALID_VALUE →
      (db_dt_processing db_tau dt_tau).dtdb_tau p = INVALID_VALUE) := by
  refine ⟨?_, ?_, ?_, ?_, ?_, ?_⟩
  · intro h1
    simp [db_dt_processing, h1]
  · intro h1 h2
    simp [db_dt_processing, h1, h2]
  · intro h1 h2
    simp [db_dt_processing, h1, h2]
  · intro h1
    simp [db_dt_processing, h1]
  · intro h1 h2
    simp [db_dt_processing, h1, h2]
  · intro h1 h2
    simp [db_dt_processing, h1, h2]

/-- Witness for C8 at concrete grids: constant grids with the values of
the spec's worked example. -/
theorem c8_prefer_fallback_witness :
    (db_dt_processing (fun _ => (5 : ℚ)) (fun _ => (-999 : ℚ))).dbdt_tau (0, 0) = 5 ∧
    (db_dt_processing (fun _ => (-999 : ℚ)) (fun _ => (3 : ℚ))).dbdt_tau (0, 0) = 3 ∧
    (db_dt_processing (fun _ => (-999 : ℚ)) (fun _ => (-999 : ℚ))).dbdt_tau (0, 0) = -999 ∧
    (db_dt_processing (fun _ => (2 : ℚ)) (fun _ => (4 : ℚ))).dtdb_tau (0, 0) = 4 ∧
    (db_dt_processing (fun _ => (5 : ℚ)) (fun _ => (-999 : ℚ))).dtdb_tau (0, 0) = 5 ∧
    (db_dt_processing (fun _ => (-999 : ℚ)) (fun _ => (-999 : ℚ))).dtdb_tau (0, 0) = -999 :=
  ⟨(c8_prefer_fallback (fun _ => 5) (fun _ => -999) (0, 0)).1
      (by norm_num [INVALID_VALUE]),
   (c8_prefer_fallback (fun _ => -999) (fun _ => 3) (0, 0)).2.1
      (by norm_num [INVALID_VALUE]) (by norm_num [INVALID_VALUE]),
   (c8_prefer_fallback (fun _ => -999) (fun _ => -999) (0, 0)).2.2.1
      (by norm_num [INVALID_VALUE]) (by norm_num [INVALID_VALUE]),
   (c8_prefer_fallback (fun _ => 2) (fun _ => 4) (0, 0)).2.2.2.1
      (by norm_num [INVALID_VALUE]),
   (c8_prefer_fallback (fun _ => 5) (fun _ => -999) (0, 0)).2.2.2.2.1
      (by norm_num [INVALID_VALUE]) (by norm_num [INVALID_VALUE]),
   (c8_prefer_fallback (fun _ => -999) (fun _ => -999) (0, 0)).2.2.2.2.2
      (by norm_num [INVALID_VALUE]) (by norm_num [INVALID_VALUE])⟩

/-- C4 fails as stated: with both inputs valid but summing to `-1998`, the
intermediate mean collides with the FILL sentinel and is then overwritten
with DT, so the averaged output is not `(A+B)/2`. -/
theorem c4_counterexample :
    (fun _ : ℤ × ℤ => (-1000 : ℚ)) (0, 0) ≠ INVALID_VALUE ∧
    (fun _ : ℤ × ℤ => (-998 : ℚ)) (0, 0) ≠ INVALID_VALUE ∧
    (db_dt_processing (fun _ => (-1000 : ℚ)) (fun _ => (-998 : ℚ))).avg_tau (0, 0) ≠
      ((-1000 : ℚ) + (-998 : ℚ)) / 2 := by
  refine ⟨by norm_num [INVALID_VALUE], by norm_num [INVALID_VALUE], ?_⟩
  norm_num [db_dt_processing, INVALID_VALUE]

/-- C4 amended: the averaged output is `(A+B)/2` where both inputs are
valid, except that a mean exactly equal to the FILL sentinel is replaced
with B; one-sided validity keeps the valid side and double FILL stays
FILL. -/
theorem c4_averaged_cases (db_tau dt_tau : ℤ × ℤ → ℚ) (p : ℤ × ℤ) :
    (db_tau p ≠ INVALID_VALUE → dt_tau p ≠ INVALID_VALUE →
      (db_tau p + dt_tau p) / 2 ≠ INVALID_VALUE →
      (db_dt_processing db_tau dt_tau).avg_tau p = (db_tau p + dt_tau p) / 2) ∧
    (db_tau p ≠ INVALID_VALUE → dt_tau p ≠ INVALID_VALUE →
      (db_tau p + dt_tau p) / 2 = INVALID_VALUE →
      (db_dt_processing db_tau dt_tau).avg_tau p = dt_tau p) ∧
    (db_tau p ≠ INVALID_VALUE → dt_tau p = INVALID_VALUE →
      (db_dt_processing db_tau dt_tau).avg_tau p = db_tau p) ∧
    (db_tau p = INVALID_VALUE → dt_tau p ≠ INVALID_VALUE →
      (db_dt_processing db_tau dt_tau).avg_tau p = dt_tau p) ∧
    (db_tau p = INVALID_VALUE → dt_tau p = INVALID_VALUE →
      (db_dt_processing db_tau dt_tau).avg_tau p = INVALID_VALUE) := by
  refine ⟨?_, ?_, ?_, ?_, ?_⟩
  · intro h1 h2 h3
    have h3a : dt_tau p + db_tau p ≠ 2 * INVALID_VALUE := by
      intro h
      exact h3 (by rw [add_comm] at h; rw [h]; norm_num [INVALID_VALUE])
    have h3b : (dt_tau p + db_tau p) / 2 ≠ INVALID_VALUE := by
      intro h
      exact h3a (by field_simp at h; linarith)
    simp [db_dt_processing, h1, h2, h3, h3b, add_comm]
  · intro h1 h2 h3
    have h3b : (dt_tau p + db_tau p) / 2 = INVALID_VALUE := by
      rw [add_comm]; exact h3
    simp [db_dt_processing, h1, h2, h3b]
  · intro h1 h2
    simp [db_dt_processing, h1, h2]
  · intro h1 h2
    simp [db_dt_processing, h1, h2]
  · intro h1 h2
    simp [db_dt_processing, h1, h2]

/-- Witness for C4 at concrete grids, covering the worked example of the
spec: both valid, valid-in-A-only, valid-in-B-only, both FILL. -/
theorem c4_averaged_cases_witness :
    (db_dt_processing (fun _ => (2 : ℚ)) (fun _ => (4 : ℚ))).avg_tau (0, 0) = 3 ∧
    (db_dt_processing (fun _ => (5 : ℚ)) (fun _ => (-999 : ℚ))).avg_tau (0, 0) = 5 ∧
    (db_dt_processing (fun _ => (-999 : ℚ)) (fun _ => (3 : ℚ))).avg_tau (0, 0) = 3 ∧
    (db_dt_processing (fun _ => (-999 : ℚ)) (fun _ => (-999 : ℚ))).avg_tau (0, 0) = -999 := by
  refine ⟨?_, ?_, ?_, ?_⟩
  · have h := (c4_averaged_cases (fun _ => (2 : ℚ)) (fun _ => (4 : ℚ)) (0, 0)).1
      (by norm_num [INVALID_VALUE]) (by norm_num [INVALID_VALUE])
      (by norm_num [INVALID_VALUE])
    rw [h]; norm_num
  · exact (c4_averaged_cases (fun _ => (5 : ℚ)) (fun _ => (-999 : ℚ)) (0, 0)).2.2.1
      (by norm_num [INVALID_VALUE]) (by norm_num [INVALID_VALUE])
  · exact (c4_averaged_cases (fun _ => (-999 : ℚ)) (fun _ => (3 : ℚ)) (0, 0)).2.2.2.1
      (by norm_num [INVALID_VALUE]) (by norm_num [INVALID_VALUE])
  · exact (c4_averaged_cases (fun _ => (-999 : ℚ)) (fun _ => (-999 : ℚ)) (0, 0)).2.2.2.2
      (by norm_num [INVALID_VALUE]) (by norm_num [INVALID_VALUE])

/-! ## Claim theorems: standard deviation policy -/

/-- Sum of a constant list. -/
lemma list_sum_of_all_eq (l : List ℚ) (v : ℚ) (h : ∀ x ∈ l, x = v) :
    l.sum = l.length * v := by
  induction l with
  | nil => simp
  | cons a l ih =>
    have ha : a = v := h a (List.mem_cons_self _ _)
    have hl : ∀ x ∈ l, x = v := fun x hx => h x (List.mem_cons_of_mem _ hx)
    rw [List.sum_cons, ih hl, ha, List.length_cons]
    push_cast
    ring

/-- C2: a cell with samples whose one-pass radicand is not positive
reports the FILL standard deviation, not zero. -/
theorem c2_std_fill_on_nonpos_radicand (L : GridLimit) (g : ℚ) (ss : List Sample)
    (i j : ℤ) (hc : 0 < (binAll L g ss (i, j)).count)
    (hr : (binAll L g ss (i, j)).sqrtau / ((binAll L g ss (i, j)).count : ℚ)
        - avgtauOf (binAll L g ss) i j ^ 2 ≤ 0) :
    stdtauOf (binAll L g ss) i j = -999 ∧ stdtauOf (binAll L g ss) i j ≠ 0 := by
  have h : para1Of (binAll L g ss) i j ≤ 0 := by
    rw [para1Of_eq _ _ _ hc]
    exact hr
  have hf := stdtauOf_of_nonpos _ i j h
  refine ⟨hf, ?_⟩
  rw [hf]
  norm_num

/-- Concrete two-sample evaluation used by several concrete instances: two
samples of value 2 at the origin of a 1-degree unit box. -/
lemma binAll_two_twos :
    binAll ⟨0, 1, 0, 1⟩ 1 [⟨2, 0, 0, 0⟩, ⟨2, 0, 0, 0⟩] (0, 0) =
      { sumtau := 4, sum_vza := 0, sqrtau := 8, count := 2, mintau := 2, maxtau := 2 } := by
  have hbox : inBox ⟨0, 1, 0, 1⟩ ⟨2, 0, 0, 0⟩ = true := by
    simp [inBox, inBoxP]
  have hcell : sampleCell ⟨0, 1, 0, 1⟩ 1 ⟨2, 0, 0, 0⟩ = (0, 0) := by
    simp [sampleCell, pytrunc]
  rw [binAll_apply]
  have hcs : cellSamples ⟨0, 1, 0, 1⟩ 1 [⟨2, 0, 0, 0⟩, ⟨2, 0, 0, 0⟩] (0, 0) =
      [⟨2, 0, 0, 0⟩, ⟨2, 0, 0, 0⟩] := by
    simp [cellSamples, hbox, hcell]
  rw [hcs]
  simp [cellUpd, initCell]
  norm_num

/-- The mean of the concrete two-sample cell. -/
lemma avgtau_two_twos :
    avgtauOf (binAll ⟨0, 1, 0, 1⟩ 1 [⟨2, 0, 0, 0⟩, ⟨2, 0, 0, 0⟩]) 0 0 = 2 := by
  unfold avgtauOf
  rw [binAll_two_twos]
  norm_num

/-- Witness for C2: the two-sample cell has positive count, radicand zero,
and FILL standard deviation. -/
theorem c2_std_fill_witness :
    0 < (binAll ⟨0, 1, 0, 1⟩ 1 [⟨2, 0, 0, 0⟩, ⟨2, 0, 0, 0⟩] (0, 0)).count ∧
    (binAll ⟨0, 1, 0, 1⟩ 1 [⟨2, 0, 0, 0⟩, ⟨2, 0, 0, 0⟩] (0, 0)).sqrtau /
        ((binAll ⟨0, 1, 0, 1⟩ 1 [⟨2, 0, 0, 0⟩, ⟨2, 0, 0, 0⟩] (0, 0)).count : ℚ)
      - avgtauOf (binAll ⟨0, 1, 0, 1⟩ 1 [⟨2, 0, 0, 0⟩, ⟨2, 0, 0, 0⟩]) 0 0 ^ 2 ≤ 0 ∧
    stdtauOf (binAll ⟨0, 1, 0, 1⟩ 1 [⟨2, 0, 0, 0⟩, ⟨2, 0, 0, 0⟩]) 0 0 = -999 := by
  have hc : 0 < (binAll ⟨0, 1, 0, 1⟩ 1 [⟨2, 0, 0, 0⟩, ⟨2, 0, 0, 0⟩] (0, 0)).count := by
    rw [binAll_two_twos]
    norm_num
  have hr : (binAll ⟨0, 1, 0, 1⟩ 1 [⟨2, 0, 0, 0⟩, ⟨2, 0, 0, 0⟩] (0, 0)).sqrtau /
        ((binAll ⟨0, 1, 0, 1⟩ 1 [⟨2, 0, 0, 0⟩, ⟨2, 0, 0, 0⟩] (0, 0)).count : ℚ)
      - avgtauOf (binAll ⟨0, 1, 0, 1⟩ 1 [⟨2, 0, 0, 0⟩, ⟨2, 0, 0, 0⟩]) 0 0 ^ 2 ≤ 0 := by
    rw [binAll_two_twos, avgtau_two_twos]
    norm_num
  exact ⟨hc, hr, (c2_std_fill_on_nonpos_radicand ⟨0, 1, 0, 1⟩ 1 _ 0 0 hc hr).1⟩

/-- C1 fails as stated: a cell holding two identical samples of value 2
reports mean 2 but standard deviation `-999`, not 0 — the zero radicand
falls into the fill branch. -/
theorem c1_counterexample :
    cellValues ⟨0, 1, 0, 1⟩ 1 [⟨2, 0, 0, 0⟩, ⟨2, 0, 0, 0⟩] (0, 0) = [2, 2] ∧
    avgtauOf (binAll ⟨0, 1, 0, 1⟩ 1 [⟨2, 0, 0, 0⟩, ⟨2, 0, 0, 0⟩]) 0 0 = 2 ∧
    stdtauOf (binAll ⟨0, 1, 0, 1⟩ 1 [⟨2, 0, 0, 0⟩, ⟨2, 0, 0, 0⟩]) 0 0 ≠ 0 := by
  have hbox : inBox ⟨0, 1, 0, 1⟩ ⟨2, 0, 0, 0⟩ = true := by
    simp [inBox, inBoxP]
  have hcell : sampleCell ⟨0, 1, 0, 1⟩ 1 ⟨2, 0, 0, 0⟩ = (0, 0) := by
    simp [sampleCell, pytrunc]
  refine ⟨by simp [cellValues, cellSamples, hbox, hcell], avgtau_two_twos, ?_⟩
  have hc : 0 < (binAll ⟨0, 1, 0, 1⟩ 1 [⟨2, 0, 0, 0⟩, ⟨2, 0, 0, 0⟩] (0, 0)).count := by
    rw [binAll_two_twos]
    norm_num
  have hp : para1Of (binAll ⟨0, 1, 0, 1⟩ 1 [⟨2, 0, 0, 0⟩, ⟨2, 0, 0, 0⟩]) 0 0 ≤ 0 := by
    rw [para1Of_eq _ _ _ hc, binAll_two_twos, avgtau_two_twos]
    norm_num
  rw [stdtauOf_of_nonpos _ _ _ hp]
  norm_num

/-- C1 amended: a cell whose k > 0 binned samples all carry the same value
v reports mean exactly v, and reports the FILL standard deviation `-999`
(the exactly-zero radicand falls into the fill branch, not `std = 0`). -/
theorem c1_identical_samples (L : GridLimit) (g : ℚ) (ss : List Sample)
    (i j : ℤ) (v : ℚ) (hc : 0 < (binAll L g ss (i, j)).count)
    (hall : ∀ x ∈ cellValues L g ss (i, j), x = v) :
    avgtauOf (binAll L g ss) i j = v ∧ stdtauOf (binAll L g ss) i j = -999 := by
  have hb := binAll_apply L g ss (i, j)
  have hcount : (binAll L g ss (i, j)).count =
      ((cellSamples L g ss (i, j)).length : ℤ) := by
    rw [hb, foldl_cellUpd_count]
    simp [initCell]
  have hsum : (binAll L g ss (i, j)).sumtau =
      ((cellSamples L g ss (i, j)).map Sample.data).sum := by
    rw [hb, foldl_cellUpd_sumtau]
    simp [initCell]
  have hsq : (binAll L g ss (i, j)).sqrtau =
      ((cellSamples L g ss (i, j)).map fun s => s.data ^ 2).sum := by
    rw [hb, foldl_cellUpd_sqrtau]
    simp [initCell]
  have hlen : 0 < (cellSamples L g ss (i, j)).length := by
    rw [hcount] at hc
    exact_mod_cast hc
  have hne : ((cellSamples L g ss (i, j)).length : ℚ) ≠ 0 := by
    have : (cellSamples L g ss (i, j)).length ≠ 0 := by omega
    exact_mod_cast this
  have hvals : ((cellSamples L g ss (i, j)).map Sample.data).sum =
      ((cellSamples L g ss (i, j)).length : ℚ) * v := by
    have h := list_sum_of_all_eq ((cellSamples L g ss (i, j)).map Sample.data) v hall
    rwa [List.length_map] at h
  have hsqv : ((cellSamples L g ss (i, j)).map fun s => s.data ^ 2).sum =
      ((cellSamples L g ss (i, j)).length : ℚ) * v ^ 2 := by
    have hmem : ∀ x ∈ (cellSamples L g ss (i, j)).map fun s => s.data ^ 2, x = v ^ 2 := by
      intro x hx
      rcases List.mem_map.mp hx with ⟨s, hs, rfl⟩
      have : s.data = v := hall s.data (List.mem_map_of_mem Sample.data hs)
      rw [this]
    have h := list_sum_of_all_eq _ (v ^ 2) hmem
    rwa [List.length_map] at h
  have havg : avgtauOf (binAll L g ss) i j = v := by
    unfold avgtauOf
    rw [if_pos hc, hsum, hcount, hvals]
    push_cast
    field_simp
  have hpara : para1Of (binAll L g ss) i j = 0 := by
    rw [para1Of_eq _ _ _ hc, hsq, hcount, hsqv, havg]
    push_cast
    field_simp
  exact ⟨havg, stdtauOf_of_nonpos _ _ _ (le_of_eq hpara)⟩

/-- Witness for C1 at the concrete two-sample cell: both hypotheses hold
there and the conclusions follow from the theorem. -/
theorem c1_identical_samples_witness :
    avgtauOf (binAll ⟨0, 1, 0, 1⟩ 1 [⟨2, 0, 0, 0⟩, ⟨2, 0, 0, 0⟩]) 0 0 = 2 ∧
    stdtauOf (binAll ⟨0, 1, 0, 1⟩ 1 [⟨2, 0, 0, 0⟩, ⟨2, 0, 0, 0⟩]) 0 0 = -999 := by
  have hc : 0 < (binAll ⟨0, 1, 0, 1⟩ 1 [⟨2, 0, 0, 0⟩, ⟨2, 0, 0, 0⟩] (0, 0)).count := by
    rw [binAll_two_twos]
    norm_num
  have hall : ∀ x ∈ cellValues ⟨0, 1, 0, 1⟩ 1 [⟨2, 0, 0, 0⟩, ⟨2, 0, 0, 0⟩] (0, 0),
      x = 2 := by
    have hbox : inBox ⟨0, 1, 0, 1⟩ ⟨2, 0, 0, 0⟩ = true := by
      simp [inBox, inBoxP]
    have hcell : sampleCell ⟨0, 1, 0, 1⟩ 1 ⟨2, 0, 0, 0⟩ = (0, 0) := by
      simp [sampleCell, pytrunc]
    simp [cellValues, cellSamples, hbox, hcell]
  exact c1_identical_samples ⟨0, 1, 0, 1⟩ 1 _ 0 0 2 hc hall

/-! ## Claim theorems: empty cells, binning, bounds, min and max -/

/-- C5: a cell with zero count reports the FILL statistics
(`mean = std = mean_angle = -999`), `min = max = -1`, `count = -999`,
while the coordinate lattice holds `min_lon + i*cell_size` and
`min_lat + j*cell_size` regardless of occupancy. -/
theorem c5_empty_cells (L : GridLimit) (g : ℚ) (ss : List Sample) (i j : ℤ)
    (_hin : inGrid L g i j) (hc : (binAll L g ss (i, j)).count = 0) :
    avgtauOf (binAll L g ss) i j = -999 ∧
    stdtauOf (binAll L g ss) i j = -999 ∧
    avg_vzaOf (binAll L g ss) i j = -999 ∧
    mintauOf (binAll L g ss) i j = -1 ∧
    maxtauOf (binAll L g ss) i j = -1 ∧
    countOf (binAll L g ss) i j = -999 ∧
    grdlonOf L g i j = L.minlon + (i : ℚ) * g ∧
    grdlatOf L g i j = L.minlat + (j : ℚ) * g := by
  have hb := binAll_apply L g ss (i, j)
  have hcell : binAll L g ss (i, j) = initCell := by
    have h := foldl_cellUpd_count (cellSamples L g ss (i, j)) initCell
    rw [← hb, hc] at h
    have hlen : (cellSamples L g ss (i, j)).length = 0 := by
      simp [initCell] at h
      omega
    rw [hb, List.eq_nil_of_length_eq_zero hlen]
    rfl
  have hnc : ¬ (0 < (binAll L g ss (i, j)).count ∧
      0 < para1Of (binAll L g ss) i j) := by
    rintro ⟨h1, -⟩
    rw [hcell] at h1
    simp [initCell] at h1
  refine ⟨?_, ?_, ?_, ?_, ?_, ?_, ?_, ?_⟩
  · unfold avgtauOf
    rw [hcell]
    norm_num [initCell]
  · unfold stdtauOf
    rw [if_neg hnc]
  · unfold avg_vzaOf
    rw [hcell]
    norm_num [initCell]
  · unfold mintauOf
    rw [hcell]
    norm_num [initCell]
  · unfold maxtauOf
    rw [hcell]
    norm_num [initCell]
  · unfold countOf
    rw [hcell]
    norm_num [initCell]
  · unfold grdlonOf
    ring
  · unfold grdlatOf
    ring

/-- Witness for C5: the empty sample stream on the unit box leaves cell
(0,0) empty and the theorem's conclusions hold there. -/
theorem c5_empty_cells_witness :
    avgtauOf (binAll ⟨0, 1, 0, 1⟩ 1 []) 0 0 = -999 ∧
    stdtauOf (binAll ⟨0, 1, 0, 1⟩ 1 []) 0 0 = -999 ∧
    avg_vzaOf (binAll ⟨0, 1, 0, 1⟩ 1 []) 0 0 = -999 ∧
    mintauOf (binAll ⟨0, 1, 0, 1⟩ 1 []) 0 0 = -1 ∧
    maxtauOf (binAll ⟨0, 1, 0, 1⟩ 1 []) 0 0 = -1 ∧
    countOf (binAll ⟨0, 1, 0, 1⟩ 1 []) 0 0 = -999 ∧
    grdlonOf ⟨0, 1, 0, 1⟩ 1 0 0 = (⟨0, 1, 0, 1⟩ : GridLimit).minlon + (0 : ℚ) * 1 ∧
    grdlatOf ⟨0, 1, 0, 1⟩ 1 0 0 = (⟨0, 1, 0, 1⟩ : GridLimit).minlat + (0 : ℚ) * 1 := by
  have hin : inGrid ⟨0, 1, 0, 1⟩ 1 0 0 := by
    refine ⟨le_refl 0, ?_, le_refl 0, ?_⟩ <;> norm_num [xdim, ydim, pyround]
  exact c5_empty_cells ⟨0, 1, 0, 1⟩ 1 [] 0 0 hin rfl

/-- C6: an in-box sample is binned at the floor-division cell index — in
particular `lon = min_lon + cell_size` gives column 1 — and a strictly
outside sample changes no accumulator at any cell. -/
theorem c6_floor_binning (L : GridLimit) (g : ℚ) (hg : 0 < g) (s : Sample)
    (st : ℤ × ℤ → Cell) :
    (inBoxP L s →
      sampleCell L g s = (⌊(s.lon - L.minlon) / g⌋, ⌊(s.lat - L.minlat) / g⌋) ∧
      binStep L g st s (sampleCell L g s) = cellUpd (st (sampleCell L g s)) s ∧
      ∀ p, p ≠ sampleCell L g s → binStep L g st s p = st p) ∧
    (s.lon = L.minlon + g → (sampleCell L g s).1 = 1) ∧
    ((s.lat < L.minlat ∨ L.maxlat < s.lat ∨ s.lon < L.minlon ∨ L.maxlon < s.lon) →
      ∀ p, binStep L g st s p = st p) := by
  refine ⟨?_, ?_, ?_⟩
  · intro hbp
    obtain ⟨h1, h2, h3, h4⟩ := hbp
    have hbox : inBox L s = true := by
      simp [inBox, inBoxP]
      exact ⟨h1, h2, h3, h4⟩
    refine ⟨?_, ?_, ?_⟩
    · unfold sampleCell
      rw [pytrunc_of_nonneg (div_nonneg (sub_nonneg.mpr h3) hg.le),
        pytrunc_of_nonneg (div_nonneg (sub_nonneg.mpr h1) hg.le)]
    · rw [binStep_apply, if_pos (by simp [hbox])]
    · intro p hp
      rw [binStep_apply, if_neg]
      simp [hbox]
      exact fun h => hp h.symm
  · intro hlon
    have hgne : g ≠ 0 := ne_of_gt hg
    have h1 : (s.lon - L.minlon) / g = 1 := by
      rw [hlon]
      field_simp
    show pytrunc ((s.lon - L.minlon) / g) = 1
    rw [h1, pytrunc_of_nonneg (by norm_num)]
    exact Int.floor_one
  · intro hout p
    rw [binStep_of_not_inBox L g st s (inBox_eq_false_of_outside L s hout)]

/-- Witness for C6: unit box, cell size 1, a sample exactly on the
boundary `lon = min_lon + cell_size` lands in column 1. -/
theorem c6_floor_binning_witness :
    sampleCell ⟨0, 1, 0, 1⟩ 1 ⟨2, 0, 1, 0⟩ = (1, 0) ∧
    (sampleCell ⟨0, 1, 0, 1⟩ 1 ⟨2, 0, 1, 0⟩).1 = 1 := by
  have h := c6_floor_binning ⟨0, 1, 0, 1⟩ 1 (by norm_num) ⟨2, 0, 1, 0⟩
    (fun _ => initCell)
  have hbox : inBoxP ⟨0, 1, 0, 1⟩ ⟨2, 0, 1, 0⟩ := by
    refine ⟨le_refl 0, ?_, ?_, ?_⟩ <;> norm_num
  have h1 := (h.1 hbox).1
  refine ⟨?_, h.2.1 (by norm_num)⟩
  rw [h1]
  norm_num [Prod.ext_iff]

/-- C10: on a well-formed domain, every in-box sample gets a cell index
inside the allocated `xdim × ydim` arrays. -/
theorem c10_indices_in_bounds (L : GridLimit) (g : ℚ)
    (_hlat : L.minlat < L.maxlat) (_hlon : L.minlon < L.maxlon) (hg : 0 < g)
    (s : Sample) (hbox : inBoxP L s) :
    0 ≤ (sampleCell L g s).1 ∧ (sampleCell L g s).1 ≤ xdim L g - 1 ∧
    0 ≤ (sampleCell L g s).2 ∧ (sampleCell L g s).2 ≤ ydim L g - 1 := by
  obtain ⟨h1, h2, h3, h4⟩ := hbox
  have hq1 : (0 : ℚ) ≤ (s.lon - L.minlon) / g := div_nonneg (sub_nonneg.mpr h3) hg.le
  have hq2 : (0 : ℚ) ≤ (s.lat - L.minlat) / g := div_nonneg (sub_nonneg.mpr h1) hg.le
  have e1 : (sampleCell L g s).1 = ⌊(s.lon - L.minlon) / g⌋ := pytrunc_of_nonneg hq1
  have e2 : (sampleCell L g s).2 = ⌊(s.lat - L.minlat) / g⌋ := pytrunc_of_nonneg hq2
  have hW1 : (s.lon - L.minlon) / g ≤ (L.maxlon - L.minlon) / g :=
    (div_le_div_iff_of_pos_right hg).mpr (by linarith)
  have hW2 : (s.lat - L.minlat) / g ≤ (L.maxlat - L.minlat) / g :=
    (div_le_div_iff_of_pos_right hg).mpr (by linarith)
  have hx : ⌊(L.maxlon - L.minlon) / g⌋ + 1 ≤ xdim L g := by
    unfold xdim
    calc ⌊(L.maxlon - L.minlon) / g⌋ + 1 = ⌊(L.maxlon - L.minlon) / g + 1⌋ :=
          (Int.floor_add_one _).symm
      _ = ⌊1 + (L.maxlon - L.minlon) / g⌋ := by rw [add_comm]
      _ ≤ pyround (1 + (L.maxlon - L.minlon) / g) := floor_le_pyround _
  have hy : ⌊(L.maxlat - L.minlat) / g⌋ + 1 ≤ ydim L g := by
    unfold ydim
    calc ⌊(L.maxlat - L.minlat) / g⌋ + 1 = ⌊(L.maxlat - L.minlat) / g + 1⌋ :=
          (Int.floor_add_one _).symm
      _ = ⌊1 + (L.maxlat - L.minlat) / g⌋ := by rw [add_comm]
      _ ≤ pyround (1 + (L.maxlat - L.minlat) / g) := floor_le_pyround _
  have hm1 := Int.floor_le_floor hW1
  have hm2 := Int.floor_le_floor hW2
  refine ⟨?_, ?_, ?_, ?_⟩
  · rw [e1]
    exact Int.floor_nonneg.mpr hq1
  · rw [e1]
    omega
  · rw [e2]
    exact Int.floor_nonneg.mpr hq2
  · rw [e2]
    omega

/-- Witness for C10: on the unit box at cell size 1, the corner sample
`(lat, lon) = (1, 1)` gets the in-range index `(1, 1)` of a 2 by 2 grid. -/
theorem c10_indices_in_bounds_witness :
    0 ≤ (sampleCell ⟨0, 1, 0, 1⟩ 1 ⟨2, 1, 1, 0⟩).1 ∧
    (sampleCell ⟨0, 1, 0, 1⟩ 1 ⟨2, 1, 1, 0⟩).1 ≤ xdim ⟨0, 1, 0, 1⟩ 1 - 1 ∧
    0 ≤ (sampleCell ⟨0, 1, 0, 1⟩ 1 ⟨2, 1, 1, 0⟩).2 ∧
    (sampleCell ⟨0, 1, 0, 1⟩ 1 ⟨2, 1, 1, 0⟩).2 ≤ ydim ⟨0, 1, 0, 1⟩ 1 - 1 :=
  c10_indices_in_bounds ⟨0, 1, 0, 1⟩ 1 (by norm_num) (by norm_num) (by norm_num)
    ⟨2, 1, 1, 0⟩ (by refine ⟨?_, ?_, ?_, ?_⟩ <;> norm_num)

/-- C9 fails as stated: a single in-box sample of value 10 never replaces
the `mintau` sentinel (seeded at 10), so after the final remap the cell
reports `min = -1`, not the least sample value 10. -/
theorem c9_counterexample :
    cellValues ⟨0, 1, 0, 1⟩ 1 [⟨10, 0, 0, 0⟩] (0, 0) = [10] ∧
    mintauOf (binAll ⟨0, 1, 0, 1⟩ 1 [⟨10, 0, 0, 0⟩]) 0 0 = -1 ∧
    (-1 : ℚ) ≠ 10 := by
  have hbox : inBox ⟨0, 1, 0, 1⟩ ⟨10, 0, 0, 0⟩ = true := by
    simp [inBox, inBoxP]
  have hcell : sampleCell ⟨0, 1, 0, 1⟩ 1 ⟨10, 0, 0, 0⟩ = (0, 0) := by
    simp [sampleCell, pytrunc]
  have hcs : cellSamples ⟨0, 1, 0, 1⟩ 1 [⟨10, 0, 0, 0⟩] (0, 0) = [⟨10, 0, 0, 0⟩] := by
    simp [cellSamples, hbox, hcell]
  refine ⟨by simp [cellValues, cellSamples, hbox, hcell], ?_, by norm_num⟩
  have hb : binAll ⟨0, 1, 0, 1⟩ 1 [⟨10, 0, 0, 0⟩] (0, 0) =
      cellUpd initCell ⟨10, 0, 0, 0⟩ := by
    rw [binAll_apply, hcs]
    rfl
  unfold mintauOf
  rw [hb]
  norm_num [cellUpd, initCell]

/-- C9 amended: for a cell whose binned values all lie strictly between
the sentinels `-1` and `10`, the first sample does replace both sentinels
and the reported min and max are exactly the least and greatest binned
values. -/
theorem c9_min_max (L : GridLimit) (g : ℚ) (ss : List Sample) (i j : ℤ)
    (hne : cellValues L g ss (i, j) ≠ [])
    (hlo : ∀ x ∈ cellValues L g ss (i, j), -1 < x)
    (hhi : ∀ x ∈ cellValues L g ss (i, j), x < 10) :
    mintauOf (binAll L g ss) i j ∈ cellValues L g ss (i, j) ∧
    (∀ x ∈ cellValues L g ss (i, j), mintauOf (binAll L g ss) i j ≤ x) ∧
    maxtauOf (binAll L g ss) i j ∈ cellValues L g ss (i, j) ∧
    (∀ x ∈ cellValues L g ss (i, j), x ≤ maxtauOf (binAll L g ss) i j) := by
  have hb := binAll_apply L g ss (i, j)
  have hmin : (binAll L g ss (i, j)).mintau =
      (cellValues L g ss (i, j)).foldl minFn 10 := by
    rw [hb, foldl_cellUpd_mintau]
    simp [initCell, cellValues]
  have hmax : (binAll L g ss (i, j)).maxtau =
      (cellValues L g ss (i, j)).foldl maxFn (-1) := by
    rw [hb, foldl_cellUpd_maxtau]
    simp [initCell, cellValues]
  obtain ⟨y, hy⟩ := List.exists_mem_of_ne_nil _ hne
  have hminmem : (cellValues L g ss (i, j)).foldl minFn 10 ∈ cellValues L g ss (i, j) := by
    rcases foldl_minFn_mem_or (cellValues L g ss (i, j)) 10 with h | h
    · exact h
    · exfalso
      have h1 := foldl_minFn_le_mem (cellValues L g ss (i, j)) 10 y hy
      rw [h] at h1
      exact absurd (hhi y hy) (not_lt.mpr h1)
  have hmaxmem : (cellValues L g ss (i, j)).foldl maxFn (-1) ∈
      cellValues L g ss (i, j) := by
    rcases foldl_maxFn_mem_or (cellValues L g ss (i, j)) (-1) with h | h
    · exact h
    · exfalso
      have h1 := mem_le_foldl_maxFn (cellValues L g ss (i, j)) (-1) y hy
      rw [h] at h1
      exact absurd (hlo y hy) (not_lt.mpr h1)
  have hmout : mintauOf (binAll L g ss) i j =
      (cellValues L g ss (i, j)).foldl minFn 10 := by
    unfold mintauOf
    rw [hmin, if_neg (ne_of_lt (hhi _ hminmem))]
  have hxout : maxtauOf (binAll L g ss) i j =
      (cellValues L g ss (i, j)).foldl maxFn (-1) := by
    unfold maxtauOf
    rw [hmax]
  refine ⟨?_, ?_, ?_, ?_⟩
  · rw [hmout]
    exact hminmem
  · intro x hx
    rw [hmout]
    exact foldl_minFn_le_mem _ 10 x hx
  · rw [hxout]
    exact hmaxmem
  · intro x hx
    rw [hxout]
    exact mem_le_foldl_maxFn _ (-1) x hx

/-- Witness for C9: one sample of value 3 in range reports min = max = 3. -/
theorem c9_min_max_witness :
    mintauOf (binAll ⟨0, 1, 0, 1⟩ 1 [⟨3, 0, 0, 0⟩]) 0 0 = 3 ∧
    maxtauOf (binAll ⟨0, 1, 0, 1⟩ 1 [⟨3, 0, 0, 0⟩]) 0 0 = 3 := by
  have hbox : inBox ⟨0, 1, 0, 1⟩ ⟨3, 0, 0, 0⟩ = true := by
    simp [inBox, inBoxP]
  have hcell : sampleCell ⟨0, 1, 0, 1⟩ 1 ⟨3, 0, 0, 0⟩ = (0, 0) := by
    simp [sampleCell, pytrunc]
  have hv : cellValues ⟨0, 1, 0, 1⟩ 1 [⟨3, 0, 0, 0⟩] (0, 0) = [3] := by
    simp [cellValues, cellSamples, hbox, hcell]
  have h := c9_min_max ⟨0, 1, 0, 1⟩ 1 [⟨3, 0, 0, 0⟩] 0 0
    (by rw [hv]; simp)
    (by rw [hv]; intro x hx; rw [List.mem_singleton.mp hx]; norm_num)
    (by rw [hv]; intro x hx; rw [List.mem_singleton.mp hx]; norm_num)
  obtain ⟨h1, -, h3, -⟩ := h
  rw [hv] at h1 h3
  exact ⟨List.mem_singleton.mp h1, List.mem_singleton.mp h3⟩

/-! ## Claim theorems: contract checking and dtypes -/

/-- C3 fails as stated: an inverted bounding box (`min_lat > max_lat`) is
not rejected — the call runs to completion and returns a grid (here with
`ydim = 0`, the out-of-box sample silently skipped). -/
theorem c3_counterexample :
    (⟨1, 0, 0, 1⟩ : GridLimit).maxlat < (⟨1, 0, 0, 1⟩ : GridLimit).minlat ∧
    ∃ r, grid ⟨1, 0, 0, 1⟩ 1 [5] [0] [0] [7] = .ok r := by
  refine ⟨by norm_num, ?_⟩
  unfold grid
  rw [if_neg (by norm_num)]
  rw [if_neg (by norm_num [xdim, ydim, pyround])]
  unfold binLoop
  rw [if_pos (by norm_num)]
  exact ⟨_, rfl⟩

/-- C3 amended: the source performs no explicit contract validation; only
violations that trip a Python runtime error are rejected.  In particular a
zero cell size always fails at the division in the dimension computation. -/
theorem c3_zero_cell_size_rejected (L : GridLimit) (indata inlat inlon vza : List ℚ) :
    grid L 0 indata inlat inlon vza = .error .zeroDivisionError := by
  unfold grid
  rw [if_pos rfl]

/-- C7 fails as stated: the sum, sum-of-squares and angle-sum accumulators
of grid.py are declared single precision, not double. -/
theorem c7_counterexample :
    sumtau_dtype ≠ NpDType.float64 ∧ sqrtau_dtype ≠ NpDType.float64 ∧
    sum_vza_dtype ≠ NpDType.float64 := by
  refine ⟨?_, ?_, ?_⟩ <;> intro h <;> cases h

/-- C7 amended: all float accumulators and all exposed float statistics of
`grid` are float32; the count accumulates in the platform default integer
and is exposed as signed 32-bit. -/
theorem c7_dtypes :
    sumtau_dtype = NpDType.float32 ∧ sum_vza_dtype = NpDType.float32 ∧
    sqrtau_dtype = NpDType.float32 ∧ count_init_dtype = NpDType.platformInt ∧
    count_out_dtype = NpDType.int32 ∧ avgtau_dtype = NpDType.float32 ∧
    stdtau_dtype = NpDType.float32 ∧ mintau_dtype = NpDType.float32 ∧
    maxtau_dtype = NpDType.float32 ∧ avg_vza_dtype = NpDType.float32 :=
  ⟨rfl, rfl, rfl, rfl, rfl, rfl, rfl, rfl, rfl, rfl⟩
